import Mathlib

/-!
Verification of the filter-and-aggregate query engine of `src/app.py`
(health-facility records for Chile: cascading categorical filters,
value enumeration for the sidebar widgets, commune ranking, and the
great-circle proximity search).

Tables are embedded as Lean lists of records; pandas boolean masking
`df[mask]` is `List.filter` (stable, source order preserved);
`Series.unique()` is first-occurrence deduplication; python `sorted` is
a stable ascending sort (embedded as insertion sort over the code-point
order on strings); `Series.isin` is list membership;
`str.contains(pat, na=False)` is substring containment on present
values with absent values non-matching.
-/

/-- Code-point lexicographic comparison of char lists, the order python
uses to compare strings. -/
def charListLe : List Char → List Char → Bool
  | [], _ => true
  | _ :: _, [] => false
  | a :: as, b :: bs =>
    if a.toNat < b.toNat then true
    else if b.toNat < a.toNat then false
    else charListLe as bs

/-- Python's string comparison `s <= t`. -/
def pyLe (s t : String) : Bool := charListLe s.data t.data

/-- `Series.unique()` of pandas walks the column keeping the first
occurrence of each value; `seen` holds the values already emitted. -/
def pdUniqueAux : List String → List String → List String
  | _, [] => []
  | seen, x :: xs =>
    if seen.contains x then pdUniqueAux seen xs
    else x :: pdUniqueAux (x :: seen) xs

/-- `Series.unique()` of pandas: the distinct values in order of first
appearance. -/
def pdUnique (l : List String) : List String := pdUniqueAux [] l

/-- `sorted(series.unique())`: distinct values sorted ascending. Python's
`sorted` is a stable ascending sort, embedded as insertion sort over the
code-point order `pyLe`. -/
def sortedUnique (l : List String) : List String :=
  List.insertionSort (fun a b => pyLe a b = true) (pdUnique l)

/-- One row of the normalized table: the canonical categorical columns
plus the optional emergency-kind column (`UrgenciaTipo`), which may be
missing (pandas `NaN`). Coordinates live in `GeoRow` below, because only
the proximity feature reads them. -/
structure Row where
  region : String
  comuna : String
  nombre : String
  tipo : String
  urgenciaTipo : Option String
deriving DecidableEq

/-- `df if region_sel == "Todas" else df[df["Region"] == region_sel]`
(line 69). -/
def regionStage (df : List Row) (region_sel : String) : List Row :=
  if region_sel = "Todas" then df else df.filter (fun r => r.region == region_sel)

/-- The commune filter (lines 75-76). -/
def comunaStage (rows : List Row) (comuna_sel : String) : List Row :=
  if comuna_sel = "Todas" then rows else rows.filter (fun r => r.comuna == comuna_sel)

/-- `df_filt[df_filt["Tipo"].isin(tipo_sel)]` (line 82). -/
def tipoStage (rows : List Row) (tipo_sel : List String) : List Row :=
  rows.filter (fun r => tipo_sel.contains r.tipo)

/-- `pat` occurs as a contiguous run inside `s`, as a Bool. -/
def containsSub (s pat : List Char) : Bool :=
  s.tails.any (fun t => pat.isPrefixOf t)

/-- `pat` occurs as a contiguous substring of `s`
(pandas `str.contains` with a plain, case-sensitive pattern). -/
def strContainsSubstr (s pat : String) : Bool :=
  containsSub s.data pat.data

/-- The emergency-service filter (lines 88-91):
`df_filt[df_filt["UrgenciaTipo"].str.contains("Público", na=False)]` for
selection "Público", likewise "Privado"; any other selection leaves the
rows unchanged. A missing `UrgenciaTipo` never matches (`na=False`). -/
def urgStage (rows : List Row) (urg_sel : String) : List Row :=
  if urg_sel = "Público" then
    rows.filter (fun r => match r.urgenciaTipo with
      | some s => strContainsSubstr s "Público"
      | none => false)
  else if urg_sel = "Privado" then
    rows.filter (fun r => match r.urgenciaTipo with
      | some s => strContainsSubstr s "Privado"
      | none => false)
  else rows

/-- The whole sidebar filter pipeline, lines 69-91: region, then
commune, then type, then emergency service. -/
def df_filt (df : List Row) (region_sel comuna_sel : String)
    (tipo_sel : List String) (urg_sel : String) : List Row :=
  urgStage (tipoStage (comunaStage (regionStage df region_sel) comuna_sel) tipo_sel) urg_sel

/-- `regiones = sorted(df["Region"].unique())` (line 66), computed from
the full table. -/
def regiones (df : List Row) : List String :=
  sortedUnique (df.map (fun r => r.region))

/-- `comunas = sorted(df_filt["Comuna"].unique())` (line 72), computed
from the region-filtered subset. -/
def comunas (df : List Row) (region_sel : String) : List String :=
  sortedUnique ((regionStage df region_sel).map (fun r => r.comuna))

/-- `tipos = sorted(df["Tipo"].unique())` (line 79), computed from the
full table `df`, not from the narrowed `df_filt`. -/
def tipos (df : List Row) : List String :=
  sortedUnique (df.map (fun r => r.tipo))

/-- Modelled from the spec: `src/app.py` has no free-text name filter —
its pipeline is region, commune, type and emergency service only. Spec
§4.3 stage 4 describes the missing stage: "Free-text substring match on
name, case-insensitive; absent/empty search string is a no-op (not an
error, not match nothing)". Case folding is per character. -/
def textFilter (rows : List Row) (q : String) : List Row :=
  if q = "" then rows
  else rows.filter (fun r =>
    containsSub (r.nombre.data.map Char.toLower) (q.data.map Char.toLower))

/-- `Series.value_counts()` of pandas: one `(value, count)` pair per
distinct value, sorted by count descending; the counting hash table
keeps first-appearance order and the sort is modelled as stable, so
tied counts stay in first-appearance order. -/
def valueCounts (l : List String) : List (String × Nat) :=
  List.insertionSort (fun a b : String × Nat => b.2 ≤ a.2)
    ((pdUnique l).map (fun v => (v, l.count v)))

/-- `ranking = df_filt["Comuna"].value_counts().head(10)` (line 209). -/
def ranking (rows : List Row) : List (String × Nat) :=
  (valueCounts (rows.map (fun r => r.comuna))).take 10

/-- The column-rename table of `df.rename(columns={...})`, lines 43-52:
a source column name is mapped to its canonical name, any other name is
kept as is. -/
def renameMap (c : String) : String :=
  if c = "RegionGlosa" then "Region"
  else if c = "ComunaGlosa" then "Comuna"
  else if c = "EstablecimientoGlosa" then "Nombre"
  else if c = "TipoEstablecimientoGlosa" then "Tipo"
  else if c = "Latitud" then "Lat"
  else if c = "Longitud" then "Lon"
  else if c = "TieneServicioUrgencia" then "Urgencia"
  else if c = "TipoUrgencia" then "UrgenciaTipo"
  else c

/-- How normalization can fail. `keyError` is the pandas `KeyError`
carrying the requested column labels that are absent (raised by
`df["Lat"]` / `df["Lon"]` at lines 55-56 and by
`df.dropna(subset=[...])` at line 58). `schemaError` is the failure the
spec demands instead, carrying the columns actually found. -/
inductive NormError where
  | keyError (missingCols : List String)
  | schemaError (foundCols : List String)
deriving DecidableEq

/-- The four canonical required columns. -/
def requiredCols : List String := ["Region", "Comuna", "Nombre", "Tipo"]

/-- Column-level behaviour of the normalization block, lines 43-58:
rename every column through `renameMap`, then read the `Lat` and `Lon`
columns for the numeric coercion (pandas raises `KeyError` on a missing
label), then `dropna(subset=requiredCols)` (pandas raises `KeyError`
naming the subset labels not present). On success the renamed column
list is returned. -/
def normalizeCols (cols : List String) : Except NormError (List String) :=
  let c := cols.map renameMap
  if "Lat" ∈ c then
    if "Lon" ∈ c then
      let missing := requiredCols.filter (fun x => !(c.contains x))
      if missing.isEmpty then Except.ok c
      else Except.error (NormError.keyError missing)
    else Except.error (NormError.keyError ["Lon"])
  else Except.error (NormError.keyError ["Lat"])

/-- A row as the proximity feature sees it: a coordinate is `none` when
the source value was missing or `pd.to_numeric` coerced it to `NaN`
(lines 55-56). -/
structure GeoRow where
  nombre : String
  lat : Option ℝ
  lon : Option ℝ

/-- `np.radians`: degrees to radians. -/
noncomputable def rad (x : ℝ) : ℝ := x * (Real.pi / 180)

/-- The argument the `dist` function of lines 179-186 passes to
`np.arccos`: `cos(lat1)·cos(lat2)·cos(lon2 − lon1) + sin(lat1)·sin(lat2)`
in radians, with no clamping. -/
noncomputable def distArg (lat1 lon1 lat2 lon2 : ℝ) : ℝ :=
  Real.cos (rad lat1) * Real.cos (rad lat2) * Real.cos (rad lon2 - rad lon1)
    + Real.sin (rad lat1) * Real.sin (rad lat2)

/-- `np.arccos`, which yields `NaN` (modelled as `none`) outside the
domain `[-1, 1]`. -/
noncomputable def npArccos (x : ℝ) : Option ℝ :=
  if -1 ≤ x ∧ x ≤ 1 then some (Real.arccos x) else none

/-- `dist` of lines 179-186: `6371 * np.arccos(distArg ...)`, `none`
when `np.arccos` produced `NaN`. -/
noncomputable def dist (lat1 lon1 lat2 lon2 : ℝ) : Option ℝ :=
  (npArccos (distArg lat1 lon1 lat2 lon2)).map (fun a => 6371 * a)

/-- Modelled from the spec: the clamp to `[-1, 1]` that the numerical
note in §4.5 requires before the inverse-cosine call and that
`src/app.py` does not perform. -/
noncomputable def clamp (x : ℝ) : ℝ := max (-1) (min 1 x)

/-- The exact real value of the great-circle distance of lines 179-186. -/
noncomputable def distR (lat1 lon1 lat2 lon2 : ℝ) : ℝ :=
  6371 * Real.arccos (distArg lat1 lon1 lat2 lon2)

/-- `df_map = df_filt.dropna(subset=["Lat", "Lon"])` (line 109): keep
the rows with both coordinates present. -/
def df_map (rows : List GeoRow) : List GeoRow :=
  rows.filter (fun r => r.lat.isSome && r.lon.isSome)

/-- `df_dist`, lines 188-190: annotate every geolocated row with its
distance to the reference point. Over exact reals the `arccos` argument
is always inside `[-1, 1]` (`distArg_mem` below), so `dist` is
`some (distR ...)` and the distance column carries the plain value. -/
noncomputable def df_dist (rows : List GeoRow) (lat_user lon_user : ℝ) :
    List (GeoRow × ℝ) :=
  (df_map rows).map (fun r => (r, distR lat_user lon_user (r.lat.getD 0) (r.lon.getD 0)))

/-- `cerca = df_dist[df_dist["Distancia"] <= radio_km]` (line 192). -/
noncomputable def cerca (rows : List GeoRow) (lat_user lon_user radio_km : ℝ) :
    List (GeoRow × ℝ) :=
  (df_dist rows lat_user lon_user).filter (fun p => decide (p.2 ≤ radio_km))

/-! ## Order lemmas for the python string comparison -/

theorem charListLe_total : ∀ as bs, charListLe as bs = true ∨ charListLe bs as = true
  | [], _ => Or.inl rfl
  | _ :: _, [] => Or.inr rfl
  | a :: as, b :: bs => by
    simp only [charListLe]
    rcases Nat.lt_trichotomy a.toNat b.toNat with h | h | h
    · left
      simp [h]
    · have h1 : ¬ a.toNat < b.toNat := by omega
      have h2 : ¬ b.toNat < a.toNat := by omega
      simpa [h1, h2] using charListLe_total as bs
    · right
      simp [h, Nat.lt_asymm h]

theorem charListLe_trans : ∀ as bs cs, charListLe as bs = true → charListLe bs cs = true →
    charListLe as cs = true
  | [], _, _, _, _ => rfl
  | _ :: _, [], _, hab, _ => by simp [charListLe] at hab
  | _ :: _, _ :: _, [], _, hbc => by simp [charListLe] at hbc
  | a :: as, b :: bs, c :: cs, hab, hbc => by
    simp only [charListLe] at hab hbc ⊢
    split at hab
    case isTrue h1 =>
      split at hbc
      case isTrue h2 =>
        have h3 : a.toNat < c.toNat := by omega
        simp [h3]
      case isFalse h2 =>
        split at hbc
        case isTrue h3 => simp at hbc
        case isFalse h3 =>
          have h4 : a.toNat < c.toNat := by omega
          simp [h4]
    case isFalse h1 =>
      split at hab
      case isTrue h2 => simp at hab
      case isFalse h2 =>
        split at hbc
        case isTrue h3 =>
          have h4 : a.toNat < c.toNat := by omega
          simp [h4]
        case isFalse h3 =>
          split at hbc
          case isTrue h4 => simp at hbc
          case isFalse h4 =>
            have h5 : ¬ a.toNat < c.toNat := by omega
            have h6 : ¬ c.toNat < a.toNat := by omega
            simp only [if_neg h5, if_neg h6]
            exact charListLe_trans as bs cs hab hbc

theorem pyLe_total (a b : String) : pyLe a b = true ∨ pyLe b a = true :=
  charListLe_total a.data b.data

theorem pyLe_trans {a b c : String} (h1 : pyLe a b = true) (h2 : pyLe b c = true) :
    pyLe a c = true :=
  charListLe_trans a.data b.data c.data h1 h2

/-! ## Lemmas about `pdUnique` and `sortedUnique` -/

theorem mem_pdUniqueAux : ∀ (seen l : List String) (a : String),
    a ∈ pdUniqueAux seen l ↔ a ∈ l ∧ a ∉ seen
  | _, [], _ => by simp [pdUniqueAux]
  | seen, x :: xs, a => by
    simp only [pdUniqueAux]
    split
    case isTrue h =>
      rw [mem_pdUniqueAux seen xs a]
      have hx : x ∈ seen := by simpa using h
      simp only [List.mem_cons]
      constructor
      · rintro ⟨ha, hs⟩
        exact ⟨Or.inr ha, hs⟩
      · rintro ⟨ha | ha, hs⟩
        · exact absurd (ha ▸ hx) hs
        · exact ⟨ha, hs⟩
    case isFalse h =>
      have hx : x ∉ seen := by simpa using h
      constructor
      · intro hmem
        rcases List.mem_cons.1 hmem with rfl | hmem'
        · exact ⟨List.mem_cons_self a xs, hx⟩
        · obtain ⟨ha, hs⟩ := (mem_pdUniqueAux (x :: seen) xs a).1 hmem'
          exact ⟨List.mem_cons_of_mem _ ha, fun hm => hs (List.mem_cons_of_mem _ hm)⟩
      · rintro ⟨hmem, hs⟩
        rcases List.mem_cons.1 hmem with rfl | ha
        · exact List.mem_cons_self a _
        · by_cases hax : a = x
          · exact hax ▸ List.mem_cons_self x _
          · exact List.mem_cons_of_mem _ ((mem_pdUniqueAux (x :: seen) xs a).2
              ⟨ha, fun hm => (List.mem_cons.1 hm).elim hax hs⟩)

theorem nodup_pdUniqueAux : ∀ (seen l : List String), (pdUniqueAux seen l).Nodup
  | _, [] => List.nodup_nil
  | seen, x :: xs => by
    simp only [pdUniqueAux]
    split
    case isTrue h => exact nodup_pdUniqueAux seen xs
    case isFalse h =>
      refine List.Nodup.cons ?_ (nodup_pdUniqueAux (x :: seen) xs)
      intro hmem
      exact ((mem_pdUniqueAux (x :: seen) xs x).1 hmem).2 (List.mem_cons_self x seen)

theorem mem_pdUnique {l : List String} {a : String} : a ∈ pdUnique l ↔ a ∈ l := by
  rw [pdUnique, mem_pdUniqueAux]
  simp

theorem nodup_pdUnique (l : List String) : (pdUnique l).Nodup :=
  nodup_pdUniqueAux [] l

theorem mem_sortedUnique {l : List String} {a : String} : a ∈ sortedUnique l ↔ a ∈ l := by
  rw [sortedUnique, List.mem_insertionSort, mem_pdUnique]

theorem nodup_sortedUnique (l : List String) : (sortedUnique l).Nodup :=
  ((List.perm_insertionSort _ (pdUnique l)).nodup_iff).2 (nodup_pdUnique l)

theorem sorted_sortedUnique (l : List String) :
    (sortedUnique l).Sorted (fun a b => pyLe a b = true) := by
  letI : IsTotal String (fun a b => pyLe a b = true) := ⟨pyLe_total⟩
  letI : IsTrans String (fun a b => pyLe a b = true) := ⟨fun _ _ _ => pyLe_trans⟩
  exact List.sorted_insertionSort _ (pdUnique l)

/-! ## Substring containment -/

theorem containsSub_iff {s pat : List Char} : containsSub s pat = true ↔ pat <:+: s := by
  rw [containsSub, List.any_eq_true]
  constructor
  · rintro ⟨t, ht, hp⟩
    exact List.infix_iff_prefix_suffix.2
      ⟨t, List.isPrefixOf_iff_prefix.1 hp, (List.mem_tails _ _).1 ht⟩
  · intro h
    obtain ⟨t, hp, hs⟩ := List.infix_iff_prefix_suffix.1 h
    exact ⟨t, (List.mem_tails _ _).2 hs, List.isPrefixOf_iff_prefix.2 hp⟩

theorem strContainsSubstr_iff {s pat : String} :
    strContainsSubstr s pat = true ↔ pat.data <:+: s.data :=
  containsSub_iff

/-! ## Geo lemmas -/

/-- Over exact reals the spherical-law-of-cosines argument never leaves
`[-1, 1]`; the overshoot the spec's numerical note warns about is a
floating-point rounding artefact. -/
theorem distArg_mem (lat1 lon1 lat2 lon2 : ℝ) :
    -1 ≤ distArg lat1 lon1 lat2 lon2 ∧ distArg lat1 lon1 lat2 lon2 ≤ 1 := by
  unfold distArg
  set p := rad lat1 with hp
  set q := rad lat2 with hq
  set t := rad lon2 - rad lon1 with ht
  have hpp := Real.sin_sq_add_cos_sq p
  have hqq := Real.sin_sq_add_cos_sq q
  have htt : Real.cos t ^ 2 ≤ 1 := Real.cos_sq_le_one t
  have hqt : (0:ℝ) ≤ Real.cos q ^ 2 * (1 - Real.cos t ^ 2) :=
    mul_nonneg (sq_nonneg _) (by linarith)
  constructor
  · nlinarith [sq_nonneg (Real.cos p + Real.cos q * Real.cos t),
      sq_nonneg (Real.sin p + Real.sin q), hqt]
  · nlinarith [sq_nonneg (Real.cos p - Real.cos q * Real.cos t),
      sq_nonneg (Real.sin p - Real.sin q), hqt]

theorem dist_def (lat1 lon1 lat2 lon2 : ℝ) :
    dist lat1 lon1 lat2 lon2 = (npArccos (distArg lat1 lon1 lat2 lon2)).map (fun a => 6371 * a) :=
  rfl

/-- In the exact-real model `np.arccos` never yields `NaN`, so the
distance column always carries the plain great-circle value. -/
theorem dist_eq_some_distR (lat1 lon1 lat2 lon2 : ℝ) :
    dist lat1 lon1 lat2 lon2 = some (distR lat1 lon1 lat2 lon2) := by
  have h := distArg_mem lat1 lon1 lat2 lon2
  rw [dist_def, npArccos, if_pos h, Option.map_some', distR]

theorem distArg_self (lat lon : ℝ) : distArg lat lon lat lon = 1 := by
  unfold distArg
  rw [sub_self, Real.cos_zero]
  have := Real.sin_sq_add_cos_sq (rad lat)
  nlinarith [this]

/-! ## The claims -/

/-- C1: the code of `dist` (lines 179-186) passes its spherical-law-of-
cosines argument to `np.arccos` with no clamp to `[-1, 1]`. In exact
arithmetic a record collocated with the reference point gets the
argument exactly 1 and distance `0.0`; but an argument nudged just
above 1 — which float64 rounding produces for collocated points, e.g.
at latitude 0.015 — makes the unclamped `np.arccos` yield `NaN`
(`none`), while the clamp the spec mandates would yield distance 0. -/
theorem dist_collocated_and_unclamped :
    (∀ lat lon : ℝ, dist lat lon lat lon = some 0) ∧
    npArccos (1 + 1 / 2 ^ 52) = none ∧
    npArccos (clamp (1 + 1 / 2 ^ 52)) = some 0 := by
  refine ⟨fun lat lon => ?_, ?_, ?_⟩
  · rw [dist_def, distArg_self, npArccos, if_pos (by norm_num)]
    simp [Real.arccos_one]
  · rw [npArccos, if_neg]
    intro h
    have := h.2
    norm_num at this
  · have hc : clamp (1 + 1 / 2 ^ 52) = 1 := by
      rw [clamp, min_eq_left (by norm_num), max_eq_right (by norm_num)]
    rw [hc, npArccos, if_pos (by norm_num)]
    simp [Real.arccos_one]

/-- C2 (amended): `cerca` (line 192) is a boolean mask over the
distance-annotated table: it keeps source order (it is a sublist of
`df_dist`, never re-sorted), and a pair passes iff its distance is at
most the radius — the radius is inclusive. -/
theorem cerca_source_order_and_radius_inclusive :
    ∀ (rows : List GeoRow) (lat_user lon_user radio_km : ℝ),
      (cerca rows lat_user lon_user radio_km).Sublist (df_dist rows lat_user lon_user) ∧
      (∀ p : GeoRow × ℝ, p ∈ cerca rows lat_user lon_user radio_km ↔
        p ∈ df_dist rows lat_user lon_user ∧ p.2 ≤ radio_km) := by
  intro rows lat_user lon_user radio_km
  constructor
  · exact List.filter_sublist _
  · intro p
    rw [cerca, List.mem_filter]
    simp only [decide_eq_true_eq]

/-- Two geolocated records on the equator: `"A"` at longitude 0.4°,
0.00044 km per degree times 0.4 ≈ 44.5 km from the origin, listed before
`"B"`, which sits exactly at the origin. -/
noncomputable def rowsC2 : List GeoRow := [⟨"A", some 0, some (2/5)⟩, ⟨"B", some 0, some 0⟩]

/-- C2 (counterexample): with the reference at the origin and radius
50 km, `cerca` returns `"A"` (≈44.5 km away) before `"B"` (0 km away),
because line 192 only masks `df_dist` and never sorts; the output is
not ascending by distance. -/
theorem cerca_not_sorted_ascending :
    ¬ List.Pairwise (fun p q : GeoRow × ℝ => p.2 ≤ q.2) (cerca rowsC2 0 0 50) := by
  have h2 : rad (2/5) = Real.pi / 450 := by rw [rad]; ring
  have h1 : rad 0 = 0 := by rw [rad]; ring
  have harg : distArg 0 0 0 (2/5) = Real.cos (Real.pi / 450) := by
    rw [distArg, h1, h2, sub_zero, Real.cos_zero, Real.sin_zero]
    ring
  have hdA : distR 0 0 0 (2/5) = 6371 * (Real.pi / 450) := by
    rw [distR, harg, Real.arccos_cos (by positivity) (by nlinarith [Real.pi_pos])]
  have hdB : distR 0 0 0 0 = 0 := by
    rw [distR, distArg_self, Real.arccos_one, mul_zero]
  have hle1 : distR 0 0 0 (2/5) ≤ 50 := by
    rw [hdA]; nlinarith [Real.pi_lt_d2]
  have hle2 : distR 0 0 0 0 ≤ 50 := by rw [hdB]; norm_num
  have hcer : cerca rowsC2 0 0 50 =
      [(⟨"A", some 0, some (2/5)⟩, distR 0 0 0 (2/5)),
       (⟨"B", some 0, some 0⟩, distR 0 0 0 0)] := by
    rw [cerca, df_dist, df_map, rowsC2]
    simp only [List.filter_cons, List.filter_nil, Option.isSome_some, Bool.and_self, if_true,
      List.map_cons, List.map_nil, Option.getD_some, decide_eq_true hle1, decide_eq_true hle2]
  intro hp
  rw [hcer] at hp
  have hle := (List.pairwise_cons.1 hp).1 _ (List.mem_cons_self _ _)
  rw [hdA, hdB] at hle
  nlinarith [Real.pi_pos, hle]

/-- C3: the free-text stage (modelled from the spec, see `textFilter`)
with an empty search string returns the input unchanged, and otherwise
keeps exactly the rows whose lower-cased name contains the lower-cased
query as a substring. -/
theorem textFilter_empty_noop_and_mem :
    ∀ (rows : List Row) (q : String) (r : Row),
      textFilter rows "" = rows ∧
      (r ∈ textFilter rows q ↔ r ∈ rows ∧ (q = "" ∨
        (q.data.map Char.toLower) <:+: (r.nombre.data.map Char.toLower))) := by
  intro rows q r
  refine ⟨if_pos rfl, ?_⟩
  by_cases hq : q = ""
  · subst hq
    rw [textFilter, if_pos rfl]
    simp
  · rw [textFilter, if_neg hq, List.mem_filter, containsSub_iff]
    constructor
    · rintro ⟨hr, hi⟩
      exact ⟨hr, Or.inr hi⟩
    · rintro ⟨hr, h | hi⟩
      · exact absurd h hq
      · exact ⟨hr, hi⟩

/-- C4: the type stage (line 82) with an empty chosen set yields the
empty list — and so does the whole pipeline — and a record passes the
stage iff its type is an element of the chosen set. -/
theorem tipoStage_empty_and_mem :
    ∀ (rows : List Row) (tipo_sel : List String) (r : Row),
      tipoStage rows [] = [] ∧
      (∀ (df : List Row) (region_sel comuna_sel urg_sel : String),
        df_filt df region_sel comuna_sel [] urg_sel = []) ∧
      (r ∈ tipoStage rows tipo_sel ↔ r ∈ rows ∧ r.tipo ∈ tipo_sel) := by
  intro rows tipo_sel r
  have hempty : ∀ rs : List Row, tipoStage rs [] = [] := by
    intro rs
    rw [tipoStage]
    simp [List.contains]
  have hurgnil : ∀ sel, urgStage [] sel = [] := by
    intro sel
    rw [urgStage]
    split
    · rfl
    · split <;> rfl
  refine ⟨hempty rows, fun df region_sel comuna_sel urg_sel => ?_, ?_⟩
  · rw [df_filt, hempty, hurgnil]
  · rw [tipoStage, List.mem_filter]
    constructor
    · rintro ⟨hr, hc⟩
      exact ⟨hr, List.elem_iff.1 hc⟩
    · rintro ⟨hr, hc⟩
      exact ⟨hr, List.elem_iff.2 hc⟩

/-- A two-region table: region `"R1"` has commune `"C1"`, region `"R2"`
has commune `"C2"`. -/
def exC5 : List Row := [⟨"R1", "C1", "n", "t", none⟩, ⟨"R2", "C2", "n", "t", none⟩]

/-- C5: the commune options (line 72) are computed from the
region-filtered subset, so every offered commune also belongs to the
full table's commune option set (the options under selection `"Todas"`);
on `exC5` selecting `"R1"` narrows the options from `["C1", "C2"]` to
`["C1"]`. -/
theorem comunas_subset_of_full :
    (∀ (df : List Row) (region_sel c : String),
      c ∈ comunas df region_sel → c ∈ comunas df "Todas") ∧
    comunas exC5 "R1" = ["C1"] ∧ comunas exC5 "Todas" = ["C1", "C2"] := by
  refine ⟨?_, by decide, by decide⟩
  intro df region_sel c hc
  rw [comunas, mem_sortedUnique] at hc
  obtain ⟨r, hr, rfl⟩ := List.mem_map.1 hc
  have hrdf : r ∈ df := by
    rw [regionStage] at hr
    split at hr
    · exact hr
    · exact List.mem_of_mem_filter hr
  rw [comunas, mem_sortedUnique, regionStage, if_pos rfl]
  exact List.mem_map_of_mem _ hrdf

theorem comunas_subset_of_full_witness : "C1" ∈ comunas exC5 "Todas" :=
  comunas_subset_of_full.1 exC5 "R1" "C1" (by decide)

/-- C6 (amended): the commune ranking (line 209) is sorted descending
by count, with at most 10 entries and at most one entry per distinct
commune. -/
theorem ranking_desc_and_bounded :
    ∀ rows : List Row,
      (ranking rows).Pairwise (fun a b : String × Nat => b.2 ≤ a.2) ∧
      (ranking rows).length ≤ 10 ∧
      (ranking rows).length ≤ (pdUnique (rows.map (fun r => r.comuna))).length := by
  intro rows
  have hs : (valueCounts (rows.map (fun r => r.comuna))).Pairwise
      (fun a b : String × Nat => b.2 ≤ a.2) := by
    letI : IsTotal (String × Nat) (fun a b : String × Nat => b.2 ≤ a.2) :=
      ⟨fun a b => Nat.le_total b.2 a.2⟩
    letI : IsTrans (String × Nat) (fun a b : String × Nat => b.2 ≤ a.2) :=
      ⟨fun _ _ _ h1 h2 => le_trans h2 h1⟩
    exact List.sorted_insertionSort _ _
  refine ⟨List.Pairwise.sublist (List.take_sublist _ _) hs, List.length_take_le _ _, ?_⟩
  rw [ranking, List.length_take]
  calc 10 ⊓ (valueCounts (rows.map (fun r => r.comuna))).length
      ≤ (valueCounts (rows.map (fun r => r.comuna))).length := Nat.min_le_right _ _
    _ = (pdUnique (rows.map (fun r => r.comuna))).length := by
        rw [valueCounts, List.length_insertionSort, List.length_map]

/-- A table whose communes `"B"` and `"A"` both occur once, `"B"`
first. -/
def exC6 : List Row := [⟨"R", "B", "n", "t", none⟩, ⟨"R", "A", "n", "t", none⟩]

/-- C6 (counterexample): on `exC6` both communes have count 1 and
`value_counts` keeps them in first-appearance order, so the ranking is
`[("B", 1), ("A", 1)]` — the tie is not broken by ascending value. -/
theorem ranking_ties_not_ascending_value :
    ranking exC6 = [("B", 1), ("A", 1)] ∧
    ¬ (ranking exC6).Pairwise
      (fun a b : String × Nat => b.2 < a.2 ∨ (b.2 = a.2 ∧ pyLe a.1 b.1 = true)) := by
  exact ⟨by decide, by decide⟩

/-- C7 (amended): whenever a required canonical column is still missing
after the rename, normalization halts with a pandas `KeyError` naming
missing requested labels (never a `SchemaError` listing the columns
found), and a successful normalization always has every required
column. -/
theorem normalizeCols_halts_on_missing_required :
    (∀ cols : List String, (¬ ∀ x ∈ requiredCols, x ∈ cols.map renameMap) →
      ∃ m, normalizeCols cols = Except.error (NormError.keyError m) ∧ m ≠ []) ∧
    (∀ cols out : List String, normalizeCols cols = Except.ok out →
      ∀ x ∈ requiredCols, x ∈ out) := by
  constructor
  · intro cols hmiss
    simp only [normalizeCols]
    split_ifs with h1 h2 h3
    · exfalso
      apply hmiss
      intro x hx
      have hnil := List.isEmpty_iff.1 h3
      by_contra hxc
      have hxm : x ∈ (requiredCols.filter
          (fun y => !((cols.map renameMap).contains y))) := by
        rw [List.mem_filter]
        exact ⟨hx, by simpa using hxc⟩
      rw [hnil] at hxm
      exact List.not_mem_nil x hxm
    · refine ⟨_, rfl, ?_⟩
      intro hnil
      rw [← List.isEmpty_iff] at hnil
      exact h3 hnil
    · exact ⟨["Lon"], rfl, by simp⟩
    · exact ⟨["Lat"], rfl, by simp⟩
  · intro cols out hok x hx
    simp only [normalizeCols] at hok
    split_ifs at hok with h1 h2 h3
    · have hout : cols.map renameMap = out := Except.ok.inj hok
      have hnil := List.isEmpty_iff.1 h3
      by_contra hxc
      have hxm : x ∈ (requiredCols.filter
          (fun y => !((cols.map renameMap).contains y))) := by
        rw [List.mem_filter]
        refine ⟨hx, ?_⟩
        rw [hout]
        simpa using hxc
      rw [hnil] at hxm
      exact List.not_mem_nil x hxm

theorem normalizeCols_halts_witness :
    ∃ m, normalizeCols ["X"] = Except.error (NormError.keyError m) ∧ m ≠ [] :=
  normalizeCols_halts_on_missing_required.1 ["X"] (by decide)

/-- C7 (counterexample): on the one-column table `["X"]` the required
columns are missing after the rename, yet the code fails with
`KeyError("Lat")` from the coordinate coercion of line 55 — not with a
`SchemaError` reporting the columns actually found. -/
theorem normalizeCols_keyError_not_schemaError :
    (¬ ∀ x ∈ requiredCols, x ∈ List.map renameMap ["X"]) ∧
    normalizeCols ["X"] = Except.error (NormError.keyError ["Lat"]) ∧
    normalizeCols ["X"] ≠ Except.error (NormError.schemaError (List.map renameMap ["X"])) := by
  refine ⟨by decide, by rfl, ?_⟩
  intro h
  rw [show normalizeCols ["X"] = Except.error (NormError.keyError ["Lat"]) from rfl] at h
  exact NormError.noConfusion (Except.error.inj h)

/-- C8 (amended): every option enumeration of the sidebar —
`regiones`, `comunas`, `tipos` — is sorted ascending in the code-point
order and has no duplicates. -/
theorem option_enumerations_sorted_nodup :
    ∀ df : List Row,
      ((regiones df).Sorted (fun a b => pyLe a b = true) ∧ (regiones df).Nodup) ∧
      (∀ region_sel, (comunas df region_sel).Sorted (fun a b => pyLe a b = true) ∧
        (comunas df region_sel).Nodup) ∧
      ((tipos df).Sorted (fun a b => pyLe a b = true) ∧ (tipos df).Nodup) := by
  intro df
  exact ⟨⟨sorted_sortedUnique _, nodup_sortedUnique _⟩,
    fun _ => ⟨sorted_sortedUnique _, nodup_sortedUnique _⟩,
    ⟨sorted_sortedUnique _, nodup_sortedUnique _⟩⟩

/-- A table with an empty-string region and an untrimmed region. -/
def exC8 : List Row := [⟨" X ", "C", "n", "t", none⟩, ⟨"", "C", "n", "t", none⟩]

/-- C8 (counterexample): line 66 is `sorted(df["Region"].unique())`
with no trimming and no removal of empty strings, so on `exC8` the
region option list keeps the empty string and the value with
surrounding whitespace. -/
theorem regiones_keep_empty_and_untrimmed :
    regiones exC8 = ["", " X "] ∧ "" ∈ regiones exC8 ∧
    " X " ∈ regiones exC8 ∧ (" X ").data.head? = some ' ' := by
  exact ⟨by decide, by decide, by decide, by decide⟩

/-- C9: the emergency filter (lines 88-91) leaves the rows unchanged
for selection "Todos"; for "Público" ("Privado") it keeps exactly the
rows whose present `UrgenciaTipo` contains the literal substring, and
a row with an absent `UrgenciaTipo` never passes — the `na=False`
containment is total, it never fails on missing data. -/
theorem urgStage_todos_and_mem :
    ∀ (rows : List Row) (r : Row),
      urgStage rows "Todos" = rows ∧
      (r ∈ urgStage rows "Público" ↔ r ∈ rows ∧
        ∃ s, r.urgenciaTipo = some s ∧ "Público".data <:+: s.data) ∧
      (r ∈ urgStage rows "Privado" ↔ r ∈ rows ∧
        ∃ s, r.urgenciaTipo = some s ∧ "Privado".data <:+: s.data) := by
  intro rows r
  refine ⟨?_, ?_, ?_⟩
  · rw [urgStage, if_neg (by decide), if_neg (by decide)]
  · rw [urgStage, if_pos rfl, List.mem_filter]
    cases h : r.urgenciaTipo with
    | none => simp [h]
    | some s => simp [h, strContainsSubstr_iff]
  · rw [urgStage, if_neg (by decide), if_pos rfl, List.mem_filter]
    cases h : r.urgenciaTipo with
    | none => simp [h]
    | some s => simp [h, strContainsSubstr_iff]

/-- A table where region `"R1"` only has type `"Hospital"` while type
`"Clínica"` occurs only in region `"R2"`. -/
def exC10 : List Row := [⟨"R1", "C1", "n", "Hospital", none⟩, ⟨"R2", "C2", "n", "Clínica", none⟩]

/-- C10: the type options (line 79) come from the full table — every
type occurring anywhere in the table is offered whatever the
region/commune selection — and on `exC10` with region `"R1"` selected
the option `"Clínica"` is offered although no record of the narrowed
subset has that type. -/
theorem tipos_options_not_cascading :
    (∀ (df : List Row) (t : String), t ∈ df.map (fun r => r.tipo) → t ∈ tipos df) ∧
    ("Clínica" ∈ tipos exC10 ∧
      ∀ r ∈ comunaStage (regionStage exC10 "R1") "Todas", r.tipo ≠ "Clínica") := by
  refine ⟨?_, by decide, by decide⟩
  intro df t ht
  rw [tipos, mem_sortedUnique]
  exact ht

theorem tipos_options_not_cascading_witness : "Hospital" ∈ tipos exC10 :=
  tipos_options_not_cascading.1 exC10 "Hospital" (by decide)
